import Mathlib

/-!
Verification of the network protocol core of a multiplayer Tetris game
(message codec in protocol.c, host state machine in server.c, client state
machine in client.c) against its natural-language specification.

The C code is shallowly embedded: machine integers are Nat with explicit
wrap-around where the C types wrap (size_t subtraction), byte buffers are
List Nat with every byte reduced mod 256 at each read (uint8_t access),
time_t is Int seconds (difftime on integer-valued time_t is exact, and the
thresholds (HEARTBEAT_INTERVAL*k)/1000.0 are the exact doubles 2.0 and 3.0,
so integer comparison is faithful), and socket I/O outcomes are passed in
as explicit event parameters.  Socket handles and sockaddr fields are not
modelled: no branch of the translated functions depends on their values.
-/

namespace TetrisNet

/-- Configuration constants from network_defs.h. -/
def MAX_CLIENTS : Nat := 2

def BUFFER_SIZE : Nat := 1024

def HEARTBEAT_INTERVAL : Nat := 1000

/-- Wire size of MessageHeader.  Modelled from the spec: the protocol.h
that declares the MessageHeader actually compiled against protocol.c
(fields msg_size:u32, msg_type:u32, checksum:u16, per protocol.c's own
header comment) is not under src/; the spec fixes the header at 10 bytes
(packed), which this constant follows.  The stale protocol.h under
src/unnamed/part_002 lacks the checksum field and cannot be the one
protocol.c compiles against. -/
def headerSize : Nat := 10

/-- Modulus of size_t arithmetic (64-bit build). -/
def SIZE_T_MOD : Nat := 2 ^ 64

/-- size_t subtraction a - b, wrapping modulo 2^64 (b at most 2^64). -/
def sub_sizeT (a b : Nat) : Nat := (a + (SIZE_T_MOD - b)) % SIZE_T_MOD

/- NetError codes from network_defs.h, as the C int values. -/

def NET_OK : Int := 0

def ERR_NET_CONN_FAILED : Int := 2

def ERR_NET_SEND_FAILED : Int := 3

def ERR_NET_TIMEOUT : Int := 5

def ERR_NET_SERVER_FULL : Int := 8

/- MessageType values from network_defs.h. -/

def MSG_INVALID : Nat := 0

def MSG_CONNECT_REQUEST : Nat := 1

def MSG_CONNECT_ACCEPT : Nat := 2

def MSG_CONNECT_REJECT : Nat := 3

def MSG_GAME_STATE : Nat := 4

def MSG_PLAYER_INPUT : Nat := 5

def MSG_HEARTBEAT : Nat := 6

def MSG_DISCONNECT : Nat := 7

def MSG_GAME_EVENT : Nat := 8

/-- Read of a uint8_t at index i of a byte list (out-of-range reads yield
0; within the claims, reads are kept in range by hypotheses except where a
claim is precisely about an out-of-range read, which then uses the
function-valued memory model below). -/
def byteAt (d : List Nat) (i : Nat) : Nat := d.getD i 0 % 256

/-- Bound of the first loop of calculate_checksum: the C expression
size - 3 evaluated in size_t, which wraps below 3. -/
def csBound (size : Nat) : Nat := sub_sizeT size 3

/-- Number of iterations the first loop of calculate_checksum performs
before its index i would wrap past 2^64 (for size at least 3 the index
never comes close to wrapping and this is the exact iteration count;
for size 0..2 the C loop index wraps back to 0 after these iterations and
the loop never exits, all the while reading far outside the payload). -/
def csGroupIters (size : Nat) : Nat := (csBound size + 3) / 4

/-- One unrolled 4-byte group of calculate_checksum:
checksum ^= bytes[i] << 8; ^= bytes[i+1]; ^= bytes[i+2] << 8; ^= bytes[i+3].
Operands are below 2^16 (each byte is below 256), so the implicit uint16_t
wrap of the C assignments is the identity and is not re-applied. -/
def csGroup (bytes : Nat → Nat) (i acc : Nat) : Nat :=
  (((acc ^^^ ((bytes i % 256) <<< 8)) ^^^ (bytes (i + 1) % 256)) ^^^
      ((bytes (i + 2) % 256) <<< 8)) ^^^ (bytes (i + 3) % 256)

/-- The first loop of calculate_checksum, running k groups from index i. -/
def csGroups (bytes : Nat → Nat) : Nat → Nat → Nat → Nat
  | 0, _, acc => acc
  | k + 1, i, acc => csGroups bytes k (i + 4) (csGroup bytes i acc)

/-- One iteration of the trailing-bytes loop of calculate_checksum. -/
def csTailStep (bytes : Nat → Nat) (i acc : Nat) : Nat :=
  if i % 2 = 0 then acc ^^^ ((bytes i % 256) <<< 8) else acc ^^^ (bytes i % 256)

/-- The trailing-bytes loop of calculate_checksum, n bytes from index i. -/
def csTail (bytes : Nat → Nat) : Nat → Nat → Nat → Nat
  | 0, _, acc => acc
  | n + 1, i, acc => csTail bytes n (i + 1) (csTailStep bytes i acc)

/-- calculate_checksum from protocol.c over a byte memory and a size.
The memory is a function so that the reads past the payload performed by
the underflowing first loop (size below 3) are representable. -/
def calculate_checksum (bytes : Nat → Nat) (size : Nat) : Nat :=
  let k := csGroupIters size
  csTail bytes (size - 4 * k) (4 * k) (csGroups bytes k 0 0)

/-- calculate_checksum applied to a payload held as a byte list. -/
def checksumList (d : List Nat) (size : Nat) : Nat :=
  calculate_checksum (fun i => d.getD i 0) size

/-- The group phase of the specification's reference checksum: process the
payload in 4-byte groups (byte 0 shifted left 8, byte 1 as-is, byte 2
shifted left 8, byte 3 as-is). -/
def specGroupsLoop (d : List Nat) : Nat → Nat → Nat → Nat
  | 0, _, acc => acc
  | k + 1, i, acc =>
      specGroupsLoop d k (i + 4)
        ((((acc ^^^ (byteAt d i <<< 8)) ^^^ byteAt d (i + 1)) ^^^
            (byteAt d (i + 2) <<< 8)) ^^^ byteAt d (i + 3))

/-- The trailing phase of the specification's reference checksum: each of
the 0-3 remainder bytes is XORed shifted left 8 when its position from the
start of the payload is even and unshifted when odd. -/
def specTailLoop (d : List Nat) : Nat → Nat → Nat → Nat
  | 0, _, acc => acc
  | n + 1, i, acc =>
      specTailLoop d n (i + 1)
        (if i % 2 = 0 then acc ^^^ (byteAt d i <<< 8) else acc ^^^ byteAt d i)

/-- The specification's reference integrity-token definition: a 16-bit XOR
accumulator over the payload's floor(n/4) full 4-byte groups, then the
n mod 4 trailing bytes by position parity. -/
def spec_checksum (d : List Nat) : Nat :=
  specTailLoop d (d.length % 4) (4 * (d.length / 4))
    (specGroupsLoop d (d.length / 4) 0 0)

/-- Host byte order of the machine the code runs on.  protocol.c writes
header fields by a raw memcpy of the struct, so the wire bytes of the
multi-byte fields follow this parameter. -/
inductive Endian
  | little
  | big
deriving DecidableEq

/-- The four bytes a uint32 occupies in memory, in host byte order. -/
def u32Bytes : Endian → Nat → List Nat
  | .little, v => [v % 256, v / 256 % 256, v / 65536 % 256, v / 16777216 % 256]
  | .big, v => [v / 16777216 % 256, v / 65536 % 256, v / 256 % 256, v % 256]

/-- The two bytes a uint16 occupies in memory, in host byte order. -/
def u16Bytes : Endian → Nat → List Nat
  | .little, v => [v % 256, v / 256 % 256]
  | .big, v => [v / 256 % 256, v % 256]

/-- Read a uint32 back out of a byte buffer at an offset, in host order. -/
def readU32 (e : Endian) (buf : List Nat) (off : Nat) : Nat :=
  match e with
  | .little =>
      byteAt buf off + 256 * byteAt buf (off + 1) + 65536 * byteAt buf (off + 2) +
        16777216 * byteAt buf (off + 3)
  | .big =>
      16777216 * byteAt buf off + 65536 * byteAt buf (off + 1) +
        256 * byteAt buf (off + 2) + byteAt buf (off + 3)

/-- Read a uint16 back out of a byte buffer at an offset, in host order. -/
def readU16 (e : Endian) (buf : List Nat) (off : Nat) : Nat :=
  match e with
  | .little => byteAt buf off + 256 * byteAt buf (off + 1)
  | .big => 256 * byteAt buf off + byteAt buf (off + 1)

/-- MessageHeader of protocol.c: msg_size (u32, total bytes including
header), msg_type (u32), checksum (u16). -/
structure MessageHeader where
  msg_size : Nat
  msg_type : Nat
  checksum : Nat
deriving DecidableEq

/-- NetworkMessage: header plus the payload bytes stored in the data
union.  The union's raw bytes are the list entries. -/
structure NetworkMessage where
  header : MessageHeader
  data : List Nat
deriving DecidableEq

/-- The data_size bytes serialize_message/deserialize_message memcpy out
of a payload area. -/
def payloadBytes (d : List Nat) (n : Nat) : List Nat :=
  (List.range n).map (byteAt d)

/-- serialize_message from protocol.c.  Returns the written wire buffer
(none when the caller's buffer is smaller than msg_size, the C -1 path)
and the caller's message as it is left after the call: the code writes the
computed checksum back through its const pointer into the caller's header.
The written header bytes are a raw memcpy of the struct, hence in host
byte order e. -/
def serialize_message (e : Endian) (msg : NetworkMessage) (buf_size : Nat) :
    Option (List Nat) × NetworkMessage :=
  if buf_size < msg.header.msg_size then (none, msg)
  else
    let data_size := sub_sizeT msg.header.msg_size headerSize
    let ck := checksumList msg.data data_size
    let header : MessageHeader := { msg.header with checksum := ck }
    let wire := u32Bytes e header.msg_size ++ u32Bytes e header.msg_type ++
      u16Bytes e ck ++ payloadBytes msg.data data_size
    (some wire, { msg with header := header })

/-- Failure modes of deserialize_message.  The C function returns -1 on
all three; the spec names them, and they correspond one-to-one to the
three early-return branches of the code, in this order. -/
inductive DecodeError
  | truncatedHeader
  | truncatedPayload
  | integrityMismatch
deriving DecidableEq

/-- deserialize_message from protocol.c: header-size check, header copy,
declared-size check, payload copy, checksum recomputation and comparison.
Header fields are read back in the same host byte order e they were
written in. -/
def deserialize_message (e : Endian) (buf : List Nat) :
    Except DecodeError NetworkMessage :=
  if buf.length < headerSize then .error .truncatedHeader
  else
    let msg_size := readU32 e buf 0
    let msg_type := readU32 e buf 4
    let ck := readU16 e buf 8
    if buf.length < msg_size then .error .truncatedPayload
    else
      let data_size := sub_sizeT msg_size headerSize
      let data := payloadBytes (buf.drop headerSize) data_size
      if checksumList data data_size = ck then
        .ok ⟨⟨msg_size, msg_type, ck⟩, data⟩
      else .error .integrityMismatch

/-- validate_message from protocol.c.  The per-type minimum payload sizes
are sizeof(ConnectRequest), sizeof(GameStateData), sizeof(PlayerInputData);
those struct layouts are not fixed by the sources under src/, so they are
parameters here (no claim depends on their values).  Heartbeat/Disconnect
size mismatches only log a warning and stay valid. -/
def validate_message (szCR szGS szPI : Nat) (msg : NetworkMessage) : Bool :=
  if msg.header.msg_type = MSG_INVALID ∨ MSG_GAME_EVENT < msg.header.msg_type then
    false
  else if msg.header.msg_type = MSG_CONNECT_REQUEST then
    decide (headerSize + szCR ≤ msg.header.msg_size)
  else if msg.header.msg_type = MSG_GAME_STATE then
    decide (headerSize + szGS ≤ msg.header.msg_size)
  else if msg.header.msg_type = MSG_PLAYER_INPUT then
    decide (headerSize + szPI ≤ msg.header.msg_size)
  else true

/-- ServerState from server.h. -/
inductive ServerState
  | idle
  | listening
  | running
  | shutdown
deriving DecidableEq

/-- ClientConnection slot from server.h (socket handle and sockaddr are
not modelled; no claimed behavior depends on their values). -/
structure ClientConnection where
  id : Nat
  is_connected : Bool
  last_heartbeat : Int
deriving DecidableEq

/-- Default slot value, standing for the zero-initialized array entry. -/
def emptySlot : ClientConnection := ⟨0, false, 0⟩

/-- ServerContext from server.h: the fixed clients[MAX_CLIENTS] array is a
list of that length, plus the occupied count and lifecycle state. -/
structure ServerContext where
  state : ServerState
  clients : List ClientConnection
  client_count : Nat
deriving DecidableEq

/-- Outcome of the non-blocking accept() call inside server_accept_client. -/
inductive AcceptEvent
  | pending
  | wouldBlock
  | failed
deriving DecidableEq

/-- server_accept_client from server.c.  Full check first (count against
MAX_CLIENTS, returning ERR_NET_SERVER_FULL); then the accept() outcome:
no pending connection returns -1, a hard failure ERR_NET_CONN_FAILED; on
success the new client is registered at index client_count with that index
as its id, marked connected, liveness stamped with the current time, the
count incremented, and a first accept moves LISTENING to RUNNING.  Returns
the C int result paired with the updated context. -/
def server_accept_client (ctx : ServerContext) (ev : AcceptEvent) (now : Int) :
    Int × ServerContext :=
  if MAX_CLIENTS ≤ ctx.client_count then (ERR_NET_SERVER_FULL, ctx)
  else
    match ev with
    | .wouldBlock => (-1, ctx)
    | .failed => (ERR_NET_CONN_FAILED, ctx)
    | .pending =>
        let client_id := ctx.client_count
        let c : ClientConnection := ⟨client_id, true, now⟩
        (Int.ofNat client_id,
          { ctx with
            clients := ctx.clients.set client_id c
            client_count := ctx.client_count + 1
            state := if ctx.state = ServerState.listening then ServerState.running
              else ctx.state })

/-- Timeout test of server_check_heartbeats and client_check_connection:
difftime(now, last) > (HEARTBEAT_INTERVAL * 3) / 1000.0.  The double
threshold is exactly 3.0 and difftime of integer times is exact, so the
integer comparison is faithful. -/
def hbStale (now last : Int) : Bool :=
  decide ((now - last) > ((HEARTBEAT_INTERVAL * 3 / 1000 : Nat) : Int))

/-- Loop of server_check_heartbeats over the first n slots: a connected
slot whose last heartbeat is stale has its connected flag cleared and is
counted.  Iterations touch disjoint slots, so the structural recursion
(tail processed first) computes the same result as the C left-to-right
loop. -/
def hbLoop (now : Int) : Nat → List ClientConnection → Nat × List ClientConnection
  | _, [] => (0, [])
  | 0, cs => (0, cs)
  | n + 1, c :: cs =>
      let r := hbLoop now n cs
      if c.is_connected ∧ hbStale now c.last_heartbeat then
        (r.1 + 1, { c with is_connected := false } :: r.2)
      else (r.1, c :: r.2)

/-- server_check_heartbeats from server.c: scans the first client_count
slots, force-disconnects stale connected peers, and returns how many it
disconnected.  It does not touch client_count. -/
def server_check_heartbeats (ctx : ServerContext) (now : Int) :
    Int × ServerContext :=
  let r := hbLoop now ctx.client_count ctx.clients
  (Int.ofNat r.1, { ctx with clients := r.2 })

/-- Outcome of one send() call to one peer. -/
inductive SendOutcome
  | ok
  | wouldBlock
  | failed
deriving DecidableEq

/-- Send loop of server_broadcast over the first n slots, with env giving
each slot's send() outcome: a connected peer with a successful send is
counted; would-block is skipped; any other send failure clears that peer's
connected flag.  Iterations touch disjoint slots, so the structural
recursion computes the same result as the C left-to-right loop. -/
def bcastLoop (env : Nat → SendOutcome) :
    Nat → Nat → List ClientConnection → Nat × List ClientConnection
  | _, _, [] => (0, [])
  | 0, _, cs => (0, cs)
  | n + 1, i, c :: cs =>
      let r := bcastLoop env n (i + 1) cs
      if c.is_connected then
        match env i with
        | .ok => (r.1 + 1, c :: r.2)
        | .wouldBlock => (r.1, c :: r.2)
        | .failed => (r.1, { c with is_connected := false } :: r.2)
      else (r.1, c :: r.2)

/-- server_broadcast from server.c: serializes the message once into a
BUFFER_SIZE stack buffer (a serialize failure returns ERR_NET_SEND_FAILED
with the context untouched), then attempts one send per connected slot,
and finally returns ERR_NET_SEND_FAILED whenever success_count is 0 —
whatever the reason — and the success count otherwise. -/
def server_broadcast (e : Endian) (ctx : ServerContext) (msg : NetworkMessage)
    (env : Nat → SendOutcome) : Int × ServerContext :=
  match (serialize_message e msg BUFFER_SIZE).1 with
  | none => (ERR_NET_SEND_FAILED, ctx)
  | some _ =>
      let r := bcastLoop env ctx.client_count 0 ctx.clients
      let ctx1 := { ctx with clients := r.2 }
      if r.1 = 0 then (ERR_NET_SEND_FAILED, ctx1) else (Int.ofNat r.1, ctx1)

/-- What one recv() attempt on a peer socket yields.  notReady means the
socket was not reported readable by select (it is then never recv'd);
wouldBlock is a non-positive recv with WSAEWOULDBLOCK; closed is a
non-positive recv with any other error; data is a positive recv returning
the given bytes. -/
inductive RecvEvent
  | notReady
  | wouldBlock
  | closed
  | data (bytes : List Nat)

/-- The switch of server_handle_messages on a validated message: a
heartbeat refreshes the peer's liveness stamp, a disconnect request clears
its connected flag, player input and all other types leave the slot alone
(input forwarding is a TODO in the code).  Every validated message counts
as processed. -/
def dispatchMsg (now : Int) (msg : NetworkMessage) (c : ClientConnection) :
    ClientConnection :=
  if msg.header.msg_type = MSG_HEARTBEAT then { c with last_heartbeat := now }
  else if msg.header.msg_type = MSG_DISCONNECT then { c with is_connected := false }
  else c

/-- Message loop of server_handle_messages over the first n slots, with
activity (the count of ready sockets still unhandled) threaded through
exactly as the C loop does: the loop stops when activity reaches 0, skips
disconnected slots and slots select did not report ready without touching
activity, skips a would-block recv also without decrementing activity
(as the C continue does), disconnects a peer on a bad recv, and otherwise
deserializes, validates, dispatches and counts the message, decrementing
activity.  fdReady holds for the slots that were in the select read set
and readable. -/
def msgLoop (e : Endian) (szCR szGS szPI : Nat) (now : Int)
    (fdReady : Nat → Bool) (ev : Nat → RecvEvent) :
    Nat → Nat → Nat → Nat → List ClientConnection → Nat × List ClientConnection
  | _, _, _, p, [] => (p, [])
  | 0, _, _, p, cs => (p, cs)
  | n + 1, i, activity, p, c :: cs =>
      if activity = 0 then (p, c :: cs)
      else if ¬ c.is_connected then
        let r := msgLoop e szCR szGS szPI now fdReady ev n (i + 1) activity p cs
        (r.1, c :: r.2)
      else if fdReady i then
        match ev i with
        | .notReady =>
            let r := msgLoop e szCR szGS szPI now fdReady ev n (i + 1) activity p cs
            (r.1, c :: r.2)
        | .wouldBlock =>
            let r := msgLoop e szCR szGS szPI now fdReady ev n (i + 1) activity p cs
            (r.1, c :: r.2)
        | .closed =>
            let r :=
              msgLoop e szCR szGS szPI now fdReady ev n (i + 1) (activity - 1) p cs
            (r.1, { c with is_connected := false } :: r.2)
        | .data bytes =>
            let step :=
              match deserialize_message e bytes with
              | .ok msg =>
                  if validate_message szCR szGS szPI msg then
                    (p + 1, dispatchMsg now msg c)
                  else (p, c)
              | .error _ => (p, c)
            let r :=
              msgLoop e szCR szGS szPI now fdReady ev n (i + 1) (activity - 1)
                step.1 cs
            (r.1, step.2 :: r.2)
      else
        let r := msgLoop e szCR szGS szPI now fdReady ev n (i + 1) activity p cs
        (r.1, c :: r.2)

/-- server_handle_messages from server.c.  The select read set is built
from the listening socket and the connected slots among the first
client_count; activity is the number of those that are readable.  No
activity returns 0 immediately.  A readable listening socket triggers one
server_accept_client (consuming one activity); then the message loop runs
over the possibly-grown client list, with readiness still judged by the
pre-accept read set (a freshly accepted slot was not in it).  Returns the
processed-message count and the updated context.  The select-failure path
(ERR_NET_RECV_FAILED) is not modelled; no claim concerns it. -/
def server_handle_messages (e : Endian) (szCR szGS szPI : Nat)
    (ctx : ServerContext) (listenReady : Bool) (accEv : AcceptEvent)
    (ev : Nat → RecvEvent) (now : Int) : Int × ServerContext :=
  let fdReady : Nat → Bool := fun i =>
    decide (i < ctx.client_count) &&
      (ctx.clients.getD i emptySlot).is_connected &&
      (match ev i with | .notReady => false | _ => true)
  let activity := (if listenReady then 1 else 0) +
    (List.range ctx.client_count).countP (fun i => fdReady i)
  if activity = 0 then (0, ctx)
  else
    let st := if listenReady then
        ((server_accept_client ctx accEv now).2, activity - 1)
      else (ctx, activity)
    let r := msgLoop e szCR szGS szPI now fdReady ev st.1.client_count 0 st.2 0
      st.1.clients
    (Int.ofNat r.1, { st.1 with clients := r.2 })

/-- ClientState from client.h. -/
inductive ClientState
  | disconnected
  | connecting
  | connected
  | gaming
  | disconnecting
deriving DecidableEq

/-- ClientContext from client.h (socket and server_addr not modelled). -/
structure ClientContext where
  state : ClientState
  player_id : Int
  last_heartbeat : Int
deriving DecidableEq

/-- client_send_message from client.c: serialize into a BUFFER_SIZE
buffer (failure returns ERR_NET_SEND_FAILED), then send; a would-block
send is treated as success (the message is silently dropped), any other
send failure returns ERR_NET_SEND_FAILED. -/
def client_send_message (e : Endian) (msg : NetworkMessage)
    (out : SendOutcome) : Int :=
  match (serialize_message e msg BUFFER_SIZE).1 with
  | none => ERR_NET_SEND_FAILED
  | some _ =>
      match out with
      | .ok => NET_OK
      | .wouldBlock => NET_OK
      | .failed => ERR_NET_SEND_FAILED

/-- The heartbeat message client_check_connection builds with
create_header(MSG_HEARTBEAT, 0): msg_size = header size + 0, checksum
zeroed. -/
def heartbeatMsg : NetworkMessage := ⟨⟨headerSize, MSG_HEARTBEAT, 0⟩, []⟩

/-- Elapsed-time test of the client's proactive-heartbeat branch:
difftime(now, last) > (HEARTBEAT_INTERVAL * 2) / 1000.0 (exactly 2.0). -/
def hbNeedSend (now last : Int) : Bool :=
  decide ((now - last) > ((HEARTBEAT_INTERVAL * 2 / 1000 : Nat) : Int))

/-- client_check_connection from client.c.  Checks the three-interval
timeout first and returns ERR_NET_TIMEOUT without sending anything; only
otherwise, past two intervals, it attempts one heartbeat send (refreshing
its own liveness stamp on success, returning ERR_NET_SEND_FAILED on a
failed send).  Returns the C int result, the updated context, and whether
a heartbeat send was attempted.  In the C code the heartbeat send would
enter calculate_checksum with a zero data_size and hit that function's
underflow (see the checksum theorems); the totalized checksum model lets
the branch structure be stated regardless. -/
def client_check_connection (e : Endian) (ctx : ClientContext)
    (out : SendOutcome) (now : Int) : Int × ClientContext × Bool :=
  if hbStale now ctx.last_heartbeat then (ERR_NET_TIMEOUT, ctx, false)
  else if hbNeedSend now ctx.last_heartbeat then
    if client_send_message e heartbeatMsg out = NET_OK then
      (NET_OK, { ctx with last_heartbeat := now }, true)
    else (ERR_NET_SEND_FAILED, ctx, true)
  else (NET_OK, ctx, false)

/-! Helper lemmas. -/

/-- size_t subtraction agrees with Nat subtraction when it cannot wrap. -/
theorem sub_sizeT_of_le (a b : Nat) (hb : b ≤ a) (ha : a < SIZE_T_MOD) :
    sub_sizeT a b = a - b := by
  have h64 : SIZE_T_MOD = 18446744073709551616 := by norm_num [SIZE_T_MOD]
  simp only [sub_sizeT, h64] at *
  omega

/-- For a size of at least 3 the group loop of calculate_checksum runs
exactly size / 4 times. -/
theorem csGroupIters_of_ge3 (n : Nat) (h3 : 3 ≤ n) (hn : n < SIZE_T_MOD) :
    csGroupIters n = n / 4 := by
  have : csBound n = n - 3 := sub_sizeT_of_le n 3 h3 hn
  simp only [csGroupIters, this]
  omega

/-- The group loop of calculate_checksum only reads the bytes with index
in [i, i + 4k), and only through their value mod 256. -/
theorem csGroups_congr (b1 b2 : Nat → Nat) :
    ∀ (k i acc : Nat), (∀ j, i ≤ j → j < i + 4 * k → b1 j % 256 = b2 j % 256) →
      csGroups b1 k i acc = csGroups b2 k i acc := by
  intro k
  induction k with
  | zero => intro i acc _; rfl
  | succ k ih =>
      intro i acc h
      have hg : csGroup b1 i acc = csGroup b2 i acc := by
        have e0 := h i (le_refl i) (by omega)
        have e1 := h (i + 1) (by omega) (by omega)
        have e2 := h (i + 2) (by omega) (by omega)
        have e3 := h (i + 3) (by omega) (by omega)
        simp [csGroup, e0, e1, e2, e3]
      simp only [csGroups, hg]
      exact ih (i + 4) (csGroup b2 i acc) fun j hj1 hj2 => h j (by omega) (by omega)

/-- The trailing loop of calculate_checksum only reads the bytes with
index in [i, i + n), and only through their value mod 256. -/
theorem csTail_congr (b1 b2 : Nat → Nat) :
    ∀ (n i acc : Nat), (∀ j, i ≤ j → j < i + n → b1 j % 256 = b2 j % 256) →
      csTail b1 n i acc = csTail b2 n i acc := by
  intro n
  induction n with
  | zero => intro i acc _; rfl
  | succ n ih =>
      intro i acc h
      have hs : csTailStep b1 i acc = csTailStep b2 i acc := by
        have e0 := h i (le_refl i) (by omega)
        simp [csTailStep, e0]
      simp only [csTail, hs]
      exact ih (i + 1) (csTailStep b2 i acc) fun j hj1 hj2 => h j (by omega) (by omega)

/-- The group loop leaves a sub-2^16 accumulator below 2^16. -/
theorem csGroups_lt (b : Nat → Nat) :
    ∀ (k i acc : Nat), acc < 2 ^ 16 → csGroups b k i acc < 2 ^ 16 := by
  intro k
  induction k with
  | zero => intro i acc h; exact h
  | succ k ih =>
      intro i acc h
      refine ih (i + 4) _ ?_
      have hb : ∀ j, b j % 256 < 2 ^ 16 := fun j =>
        lt_of_lt_of_le (Nat.mod_lt _ (by norm_num)) (by norm_num)
      have hsh : ∀ j, (b j % 256) <<< 8 < 2 ^ 16 := by
        intro j
        have : b j % 256 < 256 := Nat.mod_lt _ (by norm_num)
        calc (b j % 256) <<< 8 = (b j % 256) * 256 := by
              simp [Nat.shiftLeft_eq]
          _ < 256 * 256 := by omega
          _ ≤ 2 ^ 16 := by norm_num
      exact Nat.xor_lt_two_pow (Nat.xor_lt_two_pow (Nat.xor_lt_two_pow h (hsh i))
        (hb (i + 1))) (hsh (i + 2)) |>.trans_le (le_refl _) |> fun h4 =>
        Nat.xor_lt_two_pow h4 (hb (i + 3))

/-- The trailing loop leaves a sub-2^16 accumulator below 2^16. -/
theorem csTail_lt (b : Nat → Nat) :
    ∀ (n i acc : Nat), acc < 2 ^ 16 → csTail b n i acc < 2 ^ 16 := by
  intro n
  induction n with
  | zero => intro i acc h; exact h
  | succ n ih =>
      intro i acc h
      refine ih (i + 1) _ ?_
      have hb : b i % 256 < 2 ^ 16 :=
        lt_of_lt_of_le (Nat.mod_lt _ (by norm_num)) (by norm_num)
      have hsh : (b i % 256) <<< 8 < 2 ^ 16 := by
        have : b i % 256 < 256 := Nat.mod_lt _ (by norm_num)
        calc (b i % 256) <<< 8 = (b i % 256) * 256 := by simp [Nat.shiftLeft_eq]
          _ < 256 * 256 := by omega
          _ ≤ 2 ^ 16 := by norm_num
      unfold csTailStep
      split
      · exact Nat.xor_lt_two_pow h hsh
      · exact Nat.xor_lt_two_pow h hb

/-- calculate_checksum always fits in a uint16. -/
theorem calculate_checksum_lt (b : Nat → Nat) (n : Nat) :
    calculate_checksum b n < 2 ^ 16 := by
  unfold calculate_checksum
  exact csTail_lt b _ _ _ (csGroups_lt b _ _ _ (by norm_num))

/-- The group loop is the identity when every byte it would read is 0. -/
theorem csGroups_zeros (b : Nat → Nat) :
    ∀ (k i acc : Nat), (∀ j, i ≤ j → b j = 0) → csGroups b k i acc = acc := by
  intro k
  induction k with
  | zero => intro i acc _; rfl
  | succ k ih =>
      intro i acc h
      have hg : csGroup b i acc = acc := by
        simp [csGroup, h i (le_refl i), h (i + 1) (by omega), h (i + 2) (by omega),
          h (i + 3) (by omega)]
      simp only [csGroups, hg]
      exact ih (i + 4) acc fun j hj => h j (by omega)

/-- Count of successful sends performed by the broadcast loop: the slots
among the first n whose peer is connected and whose send returns success. -/
theorem bcastLoop_count (env : Nat → SendOutcome) :
    ∀ (n : Nat) (cs : List ClientConnection) (i : Nat), n ≤ cs.length →
      (bcastLoop env n i cs).1 = (List.range n).countP
        (fun j => (cs.getD j emptySlot).is_connected &&
          decide (env (i + j) = SendOutcome.ok)) := by
  intro n
  induction n with
  | zero => intro cs i _; cases cs <;> simp [bcastLoop]
  | succ n ih =>
      intro cs i hlen
      match cs with
      | [] => simp at hlen
      | c :: cs =>
          have hrec := ih cs (i + 1) (by simpa using hlen)
          have key : (List.range (n + 1)).countP
              (fun j => (((c :: cs).getD j emptySlot).is_connected &&
                decide (env (i + j) = SendOutcome.ok))) =
              (List.range n).countP (fun j => ((cs.getD j emptySlot).is_connected &&
                decide (env (i + 1 + j) = SendOutcome.ok))) +
              (if c.is_connected && decide (env i = SendOutcome.ok) then 1 else 0) := by
            rw [List.range_succ_eq_map, List.countP_cons, List.countP_map]
            congr 1
            refine List.countP_congr fun a _ => ?_
            have hidx : i + (a + 1) = i + 1 + a := by omega
            simp only [Function.comp_apply, List.getD_cons_succ, hidx]
          rw [key]
          cases hc : c.is_connected with
          | false => simp [bcastLoop, hc, hrec]
          | true => cases he : env i <;> simp [bcastLoop, hc, he, hrec]

/-- Count of connected peers whose send succeeds under env, among the
first client_count slots: the peers a broadcast actually reaches. -/
def sendOkCount (ctx : ServerContext) (env : Nat → SendOutcome) : Nat :=
  (List.range ctx.client_count).countP
    (fun j => (ctx.clients.getD j emptySlot).is_connected &&
      decide (env j = SendOutcome.ok))

/-- The client-side timeout test reads exactly as the three-interval
comparison on integer seconds. -/
theorem hbStale_iff (now last : Int) : hbStale now last = true ↔ 3 < now - last := by
  simp [hbStale, HEARTBEAT_INTERVAL]

/-- The client-side proactive-heartbeat test reads exactly as the
two-interval comparison on integer seconds. -/
theorem hbNeedSend_iff (now last : Int) :
    hbNeedSend now last = true ↔ 2 < now - last := by
  simp [hbNeedSend, HEARTBEAT_INTERVAL]

/-! Claim theorems. -/

/-- Claim C8: with every peer slot occupied (the occupied count equal to
the configured maximum), server_accept_client fails with
ERR_NET_SERVER_FULL and leaves the host context entirely unchanged. -/
theorem accept_full_rejects_unchanged (ctx : ServerContext) (ev : AcceptEvent)
    (now : Int) (h : ctx.client_count = MAX_CLIENTS) :
    server_accept_client ctx ev now = (ERR_NET_SERVER_FULL, ctx) := by
  unfold server_accept_client
  rw [if_pos (le_of_eq h.symm)]

/-- Witness for C8: a host with both slots occupied rejects a pending
connection and is unchanged. -/
theorem accept_full_rejects_unchanged_witness :
    server_accept_client ⟨ServerState.running, [⟨0, true, 0⟩, ⟨1, true, 0⟩], 2⟩
        AcceptEvent.pending 5 =
      (ERR_NET_SERVER_FULL, ⟨ServerState.running, [⟨0, true, 0⟩, ⟨1, true, 0⟩], 2⟩) :=
  accept_full_rejects_unchanged _ _ _ (by decide)

/-- Claim C2, counterexample: on a full host whose peer 0 is more than
three heartbeat intervals stale, server_check_heartbeats does
force-disconnect that peer (its connected flag clears and the call reports
one disconnect), but a subsequent server_accept_client still fails with
ERR_NET_SERVER_FULL: the slot did not become free, contrary to the
claim. -/
theorem accept_after_timeout_still_full_cex :
    ((server_check_heartbeats ⟨ServerState.running,
        [⟨0, true, 0⟩, ⟨1, true, 8⟩], 2⟩ 10).2.clients.getD 0
        emptySlot).is_connected = false ∧
    (server_check_heartbeats ⟨ServerState.running,
        [⟨0, true, 0⟩, ⟨1, true, 8⟩], 2⟩ 10).1 = 1 ∧
    (server_accept_client (server_check_heartbeats ⟨ServerState.running,
        [⟨0, true, 0⟩, ⟨1, true, 8⟩], 2⟩ 10).2 AcceptEvent.pending 10).1 =
      ERR_NET_SERVER_FULL := by
  decide

/-- Claim C2 (amended): a heartbeat-timeout force-disconnect clears the
peer's connected flag but never decrements the occupied count, so on a
host at full capacity a subsequent server_accept_client still fails with
ERR_NET_SERVER_FULL and changes nothing. -/
theorem slot_not_freed_by_heartbeat_timeout (ctx : ServerContext)
    (now now2 : Int) (ev : AcceptEvent) (h : MAX_CLIENTS ≤ ctx.client_count) :
    (server_check_heartbeats ctx now).2.client_count = ctx.client_count ∧
    server_accept_client (server_check_heartbeats ctx now).2 ev now2 =
      (ERR_NET_SERVER_FULL, (server_check_heartbeats ctx now).2) := by
  have hcc : (server_check_heartbeats ctx now).2.client_count = ctx.client_count := by
    simp [server_check_heartbeats]
  refine ⟨hcc, ?_⟩
  unfold server_accept_client
  rw [if_pos (hcc ▸ h)]

/-- Witness for the amended C2. -/
theorem slot_not_freed_by_heartbeat_timeout_witness :
    (server_accept_client (server_check_heartbeats ⟨ServerState.running,
        [⟨0, true, 0⟩, ⟨1, true, 8⟩], 2⟩ 10).2 AcceptEvent.pending 10).1 =
      ERR_NET_SERVER_FULL := by
  have h := slot_not_freed_by_heartbeat_timeout
    ⟨ServerState.running, [⟨0, true, 0⟩, ⟨1, true, 8⟩], 2⟩ 10 10
    AcceptEvent.pending (by decide)
  rw [h.2]

/-- Claim C1, counterexample: server_broadcast returns
ERR_NET_SEND_FAILED — not the success count 0 — both on a host with zero
connected peers and on a host whose only connected peer's send merely
would-blocked, contradicting the claim in both of its carve-outs. -/
theorem server_broadcast_zero_peers_cex :
    (server_broadcast Endian.little ⟨ServerState.listening,
        [emptySlot, emptySlot], 0⟩ ⟨⟨14, MSG_PLAYER_INPUT, 518⟩, [1, 2, 3, 4]⟩
        (fun _ => SendOutcome.ok)).1 = ERR_NET_SEND_FAILED ∧
    (server_broadcast Endian.little ⟨ServerState.running,
        [⟨0, true, 0⟩, emptySlot], 1⟩ ⟨⟨14, MSG_PLAYER_INPUT, 518⟩, [1, 2, 3, 4]⟩
        (fun _ => SendOutcome.wouldBlock)).1 = ERR_NET_SEND_FAILED ∧
    ERR_NET_SEND_FAILED ≠ 0 := by
  decide

/-- Claim C1 (amended): for a serializable message, server_broadcast
fails with ERR_NET_SEND_FAILED exactly when the number of connected peers
whose send succeeded is zero — including when every connected peer's send
merely would-blocked and when there are no connected peers at all — and
otherwise returns that (positive) count. -/
theorem server_broadcast_failure_characterization (e : Endian)
    (ctx : ServerContext) (msg : NetworkMessage) (env : Nat → SendOutcome)
    (hwf : ctx.client_count ≤ ctx.clients.length)
    (hsz : msg.header.msg_size ≤ BUFFER_SIZE) :
    (server_broadcast e ctx msg env).1 =
      if sendOkCount ctx env = 0 then ERR_NET_SEND_FAILED
      else Int.ofNat (sendOkCount ctx env) := by
  have hw : (serialize_message e msg BUFFER_SIZE).1 =
      some (u32Bytes e msg.header.msg_size ++ u32Bytes e msg.header.msg_type ++
        u16Bytes e (checksumList msg.data (sub_sizeT msg.header.msg_size headerSize)) ++
        payloadBytes msg.data (sub_sizeT msg.header.msg_size headerSize)) := by
    simp [serialize_message, Nat.not_lt.2 hsz]
  have hcount : (bcastLoop env ctx.client_count 0 ctx.clients).1 =
      sendOkCount ctx env := by
    rw [bcastLoop_count env ctx.client_count ctx.clients 0 hwf]
    unfold sendOkCount
    refine List.countP_congr fun a _ => by simp
  simp only [server_broadcast, hw]
  rw [hcount]
  split <;> simp

/-- Witness for the amended C1: one of two peers connected, its send
succeeding, gives broadcast result 1. -/
theorem server_broadcast_failure_characterization_witness :
    (server_broadcast Endian.little ⟨ServerState.running,
        [⟨0, true, 0⟩, ⟨1, false, 0⟩], 2⟩ ⟨⟨14, MSG_PLAYER_INPUT, 518⟩,
        [1, 2, 3, 4]⟩ (fun _ => SendOutcome.ok)).1 = 1 := by
  have h := server_broadcast_failure_characterization Endian.little
    ⟨ServerState.running, [⟨0, true, 0⟩, ⟨1, false, 0⟩], 2⟩
    ⟨⟨14, MSG_PLAYER_INPUT, 518⟩, [1, 2, 3, 4]⟩ (fun _ => SendOutcome.ok)
    (by decide) (by decide)
  rw [h]
  decide

/-- Result of one client heartbeat send: only a non-would-block send
failure surfaces (would-block is swallowed as NET_OK by
client_send_message). -/
theorem client_send_heartbeat (e : Endian) (out : SendOutcome) :
    client_send_message e heartbeatMsg out =
      if out = SendOutcome.failed then ERR_NET_SEND_FAILED else NET_OK := by
  have hw : (serialize_message e heartbeatMsg BUFFER_SIZE).1 =
      some (u32Bytes e headerSize ++ u32Bytes e MSG_HEARTBEAT ++
        u16Bytes e (checksumList [] (sub_sizeT headerSize headerSize)) ++
        payloadBytes [] (sub_sizeT headerSize headerSize)) := by
    simp [serialize_message, heartbeatMsg, BUFFER_SIZE, headerSize]
  simp only [client_send_message, hw]
  cases out <;> simp

/-- Claim C7, counterexample: with the elapsed time at four seconds —
which exceeds twice the heartbeat interval — client_check_connection does
not send a heartbeat (third component false): the three-interval timeout
is checked first and returns ERR_NET_TIMEOUT without any send. -/
theorem client_timeout_skips_heartbeat_cex :
    client_check_connection Endian.little ⟨ClientState.connected, -1, 0⟩
        SendOutcome.ok 4 =
      (ERR_NET_TIMEOUT, ⟨ClientState.connected, -1, 0⟩, false) ∧
    (2 : Int) < 4 - 0 := by
  constructor
  · decide
  · norm_num

/-- Claim C7 (amended): client_check_connection fails with
ERR_NET_TIMEOUT, sending nothing, when the elapsed time exceeds three
heartbeat intervals; it attempts one heartbeat send only when the elapsed
time exceeds two intervals but not three (refreshing its liveness stamp
unless the send fails other than by would-block); and below two intervals
it does nothing. -/
theorem client_check_connection_characterization (e : Endian)
    (ctx : ClientContext) (out : SendOutcome) (now : Int) :
    (3 < now - ctx.last_heartbeat →
      client_check_connection e ctx out now = (ERR_NET_TIMEOUT, ctx, false)) ∧
    (2 < now - ctx.last_heartbeat → now - ctx.last_heartbeat ≤ 3 →
      client_check_connection e ctx out now =
        if out = SendOutcome.failed then (ERR_NET_SEND_FAILED, ctx, true)
        else (NET_OK, { ctx with last_heartbeat := now }, true)) ∧
    (now - ctx.last_heartbeat ≤ 2 →
      client_check_connection e ctx out now = (NET_OK, ctx, false)) := by
  refine ⟨fun h => ?_, fun h1 h2 => ?_, fun h => ?_⟩
  · unfold client_check_connection
    rw [if_pos ((hbStale_iff _ _).2 h)]
  · unfold client_check_connection
    rw [if_neg (fun hh => absurd ((hbStale_iff _ _).1 hh) (not_lt.2 h2)),
      if_pos ((hbNeedSend_iff _ _).2 h1), client_send_heartbeat]
    cases out <;> simp [NET_OK, ERR_NET_SEND_FAILED]
  · unfold client_check_connection
    rw [if_neg (fun hh => absurd ((hbStale_iff _ _).1 hh) (by omega)),
      if_neg (fun hh => absurd ((hbNeedSend_iff _ _).1 hh) (not_lt.2 h))]

/-- Witness for the amended C7: at exactly three seconds elapsed the
client sends a heartbeat, refreshes its stamp, and reports NET_OK. -/
theorem client_check_connection_characterization_witness :
    client_check_connection Endian.little ⟨ClientState.connected, -1, 0⟩
        SendOutcome.ok 3 =
      (NET_OK, ⟨ClientState.connected, -1, 3⟩, true) := by
  have h := (client_check_connection_characterization Endian.little
    ⟨ClientState.connected, -1, 0⟩ SendOutcome.ok 3).2.1 (by norm_num) (by norm_num)
  rw [h]
  decide

/-- Claim C10: a successful serialize_message hands back the caller's
message with the freshly computed integrity token written into its header
checksum field (through the const pointer) and every other field — size,
type, payload — unchanged.  The hypotheses confine the statement to calls
the C code completes: the caller's buffer holds the message (otherwise
the -1 path returns before the write) and the payload has at least 3
bytes (otherwise the token computation itself underflows, see the
checksum theorems). -/
theorem serialize_mutates_checksum_only (e : Endian) (msg : NetworkMessage)
    (buf_size : Nat) (h1 : msg.header.msg_size ≤ buf_size)
    (h2 : headerSize + 3 ≤ msg.header.msg_size)
    (h3 : msg.header.msg_size < 2 ^ 32) :
    (serialize_message e msg buf_size).2 =
      { msg with header := { msg.header with
          checksum := checksumList msg.data (msg.header.msg_size - headerSize) } } := by
  have hs : sub_sizeT msg.header.msg_size headerSize =
      msg.header.msg_size - headerSize := by
    refine sub_sizeT_of_le _ _ ?_ ?_
    · unfold headerSize at *; omega
    · calc msg.header.msg_size < 2 ^ 32 := h3
        _ < SIZE_T_MOD := by norm_num [SIZE_T_MOD]
  simp [serialize_message, Nat.not_lt.2 h1, hs]

/-- Witness for C10: encoding a 4-byte-payload message with a zeroed
checksum field hands back the message with checksum 518 and all else
unchanged. -/
theorem serialize_mutates_checksum_only_witness :
    (serialize_message Endian.little ⟨⟨14, MSG_PLAYER_INPUT, 0⟩, [1, 2, 3, 4]⟩
        BUFFER_SIZE).2 = ⟨⟨14, MSG_PLAYER_INPUT, 518⟩, [1, 2, 3, 4]⟩ := by
  have h := serialize_mutates_checksum_only Endian.little
    ⟨⟨14, MSG_PLAYER_INPUT, 0⟩, [1, 2, 3, 4]⟩ BUFFER_SIZE
    (by decide) (by decide) (by norm_num)
  rw [h]
  decide

/-- Claim C5: the little-endian and big-endian hosts produce different
wire buffers for the same message, because serialize_message writes the
header by a raw struct memcpy with no byte-order conversion: the wire
format depends on the host architecture, and on the little-endian target
the size field goes out as 14,0,0,0 rather than the documented big-endian
0,0,0,14. -/
theorem serialize_endianness_dependent :
    (serialize_message Endian.little ⟨⟨14, MSG_PLAYER_INPUT, 518⟩, [1, 2, 3, 4]⟩
        BUFFER_SIZE).1 = some [14, 0, 0, 0, 5, 0, 0, 0, 6, 2, 1, 2, 3, 4] ∧
    (serialize_message Endian.big ⟨⟨14, MSG_PLAYER_INPUT, 518⟩, [1, 2, 3, 4]⟩
        BUFFER_SIZE).1 = some [0, 0, 0, 14, 0, 0, 0, 5, 2, 6, 1, 2, 3, 4] ∧
    ([14, 0, 0, 0, 5, 0, 0, 0, 6, 2, 1, 2, 3, 4] : List Nat) ≠
      [0, 0, 0, 14, 0, 0, 0, 5, 2, 6, 1, 2, 3, 4] := by
  refine ⟨?_, ?_, by decide⟩ <;> decide

/-- The code's group loop and the spec reference's group loop are the same
computation byte for byte when the bytes come from the payload list. -/
theorem csGroups_eq_specGroupsLoop (d : List Nat) :
    ∀ (k i acc : Nat),
      csGroups (fun j => d.getD j 0) k i acc = specGroupsLoop d k i acc := by
  intro k
  induction k with
  | zero => intro i acc; rfl
  | succ k ih =>
      intro i acc
      simp only [csGroups, specGroupsLoop, csGroup, byteAt]
      exact ih (i + 4) _

/-- The code's trailing loop and the spec reference's trailing loop are
the same computation byte for byte. -/
theorem csTail_eq_specTailLoop (d : List Nat) :
    ∀ (n i acc : Nat),
      csTail (fun j => d.getD j 0) n i acc = specTailLoop d n i acc := by
  intro n
  induction n with
  | zero => intro i acc; rfl
  | succ n ih =>
      intro i acc
      simp only [csTail, specTailLoop, csTailStep, byteAt]
      exact ih (i + 1) _

/-- Claim C4: on an empty payload (length 0, as every Heartbeat and
Disconnect message carries), calculate_checksum does not compute the
spec's reference token 0: its first loop bound size - 3 underflows in
size_t, the loop runs (modelled up to the index wrap) 2^62 group
iterations, and the result — here 256 for a memory holding the byte 1
just past the payload — depends on out-of-bounds memory.  For payload
length at least 3 the code does equal the reference definition. -/
theorem checksum_underflow_empty_payload :
    calculate_checksum (fun i => if i = 0 then 1 else 0) 0 = 256 ∧
    spec_checksum [] = 0 ∧
    csGroupIters 0 = 2 ^ 62 ∧
    (∀ d : List Nat, 3 ≤ d.length → d.length < SIZE_T_MOD →
      checksumList d d.length = spec_checksum d) := by
  have hiters : csGroupIters 0 = 2 ^ 62 := by
    norm_num [csGroupIters, csBound, sub_sizeT, SIZE_T_MOD]
  refine ⟨?_, by decide, hiters, ?_⟩
  · have hmain : calculate_checksum (fun i => if i = 0 then 1 else 0) 0 =
        csTail (fun i => if i = 0 then 1 else 0) (0 - 4 * csGroupIters 0)
          (4 * csGroupIters 0)
          (csGroups (fun i => if i = 0 then 1 else 0) (csGroupIters 0) 0 0) := rfl
    rw [hmain, hiters]
    have hz : (0 : Nat) - 4 * 2 ^ 62 = 0 := by norm_num
    rw [hz, csTail.eq_1]
    have h62 : (2 : Nat) ^ 62 = Nat.succ 4611686018427387903 := by
      rw [Nat.succ_eq_add_one]; norm_num
    rw [h62, csGroups.eq_2]
    rw [csGroups_zeros _ 4611686018427387903 (0 + 4) _
      (fun j hj => by rw [if_neg]; omega)]
    decide
  · intro d h3 hlt
    simp only [checksumList, calculate_checksum, spec_checksum]
    rw [csGroupIters_of_ge3 d.length h3 hlt, csGroups_eq_specGroupsLoop,
      csTail_eq_specTailLoop]
    have hmod : d.length - 4 * (d.length / 4) = d.length % 4 := by omega
    rw [hmod]

/-- Every modelled byte read is below 256 (uint8_t). -/
theorem byteAt_lt (d : List Nat) (i : Nat) : byteAt d i < 256 := by
  unfold byteAt
  exact Nat.mod_lt _ (by norm_num)

/-- Reads past an appended prefix land in the suffix. -/
theorem byteAt_append (A rest : List Nat) (k : Nat) :
    byteAt (A ++ rest) (A.length + k) = byteAt rest k := by
  unfold byteAt
  rw [List.getD_append_right A rest 0 (A.length + k) (by omega),
    Nat.add_sub_cancel_left]

/-- A uint32 written then read back at the same offset in the same host
order is unchanged. -/
theorem readU32_u32Bytes (e : Endian) (v : Nat) (rest : List Nat)
    (hv : v < 2 ^ 32) : readU32 e (u32Bytes e v ++ rest) 0 = v := by
  cases e <;> simp [readU32, u32Bytes, byteAt, List.getD] <;> omega

/-- A uint16 written then read back at the same offset in the same host
order is unchanged. -/
theorem readU16_u16Bytes (e : Endian) (v : Nat) (rest : List Nat)
    (hv : v < 2 ^ 16) : readU16 e (u16Bytes e v ++ rest) 0 = v := by
  cases e <;> simp [readU16, u16Bytes, byteAt, List.getD] <;> omega

/-- Reading a uint32 past an appended prefix reads from the suffix. -/
theorem readU32_shift (e : Endian) (A rest : List Nat) (j : Nat) :
    readU32 e (A ++ rest) (A.length + j) = readU32 e rest j := by
  have h1 : A.length + j + 1 = A.length + (j + 1) := by omega
  have h2 : A.length + j + 2 = A.length + (j + 2) := by omega
  have h3 : A.length + j + 3 = A.length + (j + 3) := by omega
  cases e <;> simp only [readU32, h1, h2, h3, byteAt_append]

/-- Reading a uint16 past an appended prefix reads from the suffix. -/
theorem readU16_shift (e : Endian) (A rest : List Nat) (j : Nat) :
    readU16 e (A ++ rest) (A.length + j) = readU16 e rest j := by
  have h1 : A.length + j + 1 = A.length + (j + 1) := by omega
  cases e <;> simp only [readU16, h1, byteAt_append]

theorem u32Bytes_length (e : Endian) (v : Nat) : (u32Bytes e v).length = 4 := by
  cases e <;> rfl

theorem u16Bytes_length (e : Endian) (v : Nat) : (u16Bytes e v).length = 2 := by
  cases e <;> rfl

theorem payloadBytes_length (d : List Nat) (n : Nat) :
    (payloadBytes d n).length = n := by
  simp [payloadBytes]

/-- Within range, the copied payload bytes are the source bytes. -/
theorem payloadBytes_getD (d : List Nat) (n j : Nat) (h : j < n) :
    (payloadBytes d n).getD j 0 = byteAt d j := by
  have hlen : j < (payloadBytes d n).length := by simp [payloadBytes_length, h]
  rw [List.getD_eq_getElem?_getD, List.getElem?_eq_getElem hlen]
  simp [payloadBytes, List.getElem_map, List.getElem_range]

/-- Copying an already-copied payload is the identity. -/
theorem payloadBytes_idem (d : List Nat) (n : Nat) :
    payloadBytes (payloadBytes d n) n = payloadBytes d n := by
  unfold payloadBytes
  refine List.map_congr_left fun a ha => ?_
  have han : a < n := by simpa using List.mem_range.1 ha
  show byteAt (payloadBytes d n) a = byteAt d a
  unfold byteAt
  rw [payloadBytes_getD d n a han]
  exact Nat.mod_eq_of_lt (byteAt_lt d a)

/-- A list of genuine bytes of the right length is its own payload copy. -/
theorem payloadBytes_self (d : List Nat) (hb : ∀ b ∈ d, b < 256) :
    payloadBytes d d.length = d := by
  refine List.ext_getElem (by simp [payloadBytes_length]) fun j h1 h2 => ?_
  have hj : j < d.length := h2
  have : (payloadBytes d d.length)[j] = byteAt d j := by
    simp [payloadBytes, List.getElem_map, List.getElem_range]
  rw [this]
  unfold byteAt
  rw [List.getD_eq_getElem?_getD, List.getElem?_eq_getElem hj]
  exact Nat.mod_eq_of_lt (hb _ (List.getElem_mem hj))

/-- For sizes at least 3, the checksum of the copied payload equals the
checksum of the source payload: every read stays below the size. -/
theorem checksumList_payloadBytes (d : List Nat) (n : Nat) (h3 : 3 ≤ n)
    (hlt : n < SIZE_T_MOD) :
    checksumList (payloadBytes d n) n = checksumList d n := by
  have hiters : csGroupIters n = n / 4 := csGroupIters_of_ge3 n h3 hlt
  have hagree : ∀ j, j < n →
      (payloadBytes d n).getD j 0 % 256 = d.getD j 0 % 256 := by
    intro j hj
    rw [payloadBytes_getD d n j hj]
    exact Nat.mod_eq_of_lt (byteAt_lt d j)
  simp only [checksumList, calculate_checksum]
  rw [hiters]
  rw [csGroups_congr (fun i => (payloadBytes d n).getD i 0) (fun i => d.getD i 0)
    (n / 4) 0 0 (fun j hj1 hj2 => hagree j (by omega))]
  exact csTail_congr (fun i => (payloadBytes d n).getD i 0) (fun i => d.getD i 0)
    (n - 4 * (n / 4)) (4 * (n / 4)) _ (fun j hj1 hj2 => hagree j (by omega))

/-- checksumList always fits a uint16. -/
theorem checksumList_lt (d : List Nat) (n : Nat) : checksumList d n < 2 ^ 16 :=
  calculate_checksum_lt _ n

/-- Claim C3: for a valid message — type in the declared enumeration,
declared size between header size and the buffer capacity, payload bytes
and checksum field consistent with the declared size — with a payload of
at least 3 bytes (below that the checksum computation underflows, see the
checksum theorems), decoding the buffer produced by encoding yields the
message back, equal in all header fields and all payload bytes, on either
host byte order. -/
theorem roundtrip_payload_ge3 (e : Endian) (msg : NetworkMessage)
    (htype1 : 1 ≤ msg.header.msg_type) (htype2 : msg.header.msg_type ≤ 8)
    (hsz1 : headerSize + 3 ≤ msg.header.msg_size)
    (hsz2 : msg.header.msg_size ≤ BUFFER_SIZE)
    (hlen : msg.data.length = msg.header.msg_size - headerSize)
    (hbytes : ∀ b ∈ msg.data, b < 256)
    (hck : msg.header.checksum =
      checksumList msg.data (msg.header.msg_size - headerSize)) :
    ∀ w, (serialize_message e msg BUFFER_SIZE).1 = some w →
      deserialize_message e w = Except.ok msg := by
  obtain ⟨⟨s, t, c⟩, d⟩ := msg
  simp only [headerSize, BUFFER_SIZE] at hsz1 hsz2 hlen hck
  simp only at htype1 htype2 hbytes
  have h13 : 13 ≤ s := hsz1
  have hslt : s < SIZE_T_MOD := lt_of_le_of_lt hsz2 (by norm_num [SIZE_T_MOD])
  have hsub10 : sub_sizeT s 10 = s - 10 := sub_sizeT_of_le s 10 (by omega) hslt
  have hn3 : 3 ≤ s - 10 := by omega
  have hnlt : s - 10 < SIZE_T_MOD := by
    have : (18446744073709551616 : Nat) = SIZE_T_MOD := by norm_num [SIZE_T_MOD]
    omega
  intro w hw
  have hser : (serialize_message e ⟨⟨s, t, c⟩, d⟩ BUFFER_SIZE).1 =
      some (u32Bytes e s ++ u32Bytes e t ++ u16Bytes e c ++
        payloadBytes d (s - 10)) := by
    simp only [serialize_message]
    rw [if_neg (show ¬ BUFFER_SIZE < (⟨⟨s, t, c⟩, d⟩ : NetworkMessage).header.msg_size by
      simp [BUFFER_SIZE]; omega)]
    simp only [headerSize, hsub10, ← hck]
  rw [hser] at hw
  obtain rfl := Option.some.inj hw
  have hlenW : (u32Bytes e s ++ u32Bytes e t ++ u16Bytes e c ++
      payloadBytes d (s - 10)).length = s := by
    simp [u32Bytes_length, u16Bytes_length, payloadBytes_length]
    omega
  have hW1 : u32Bytes e s ++ u32Bytes e t ++ u16Bytes e c ++ payloadBytes d (s - 10) =
      u32Bytes e s ++ (u32Bytes e t ++ (u16Bytes e c ++ payloadBytes d (s - 10))) := by
    simp [List.append_assoc]
  have hrs : readU32 e (u32Bytes e s ++ u32Bytes e t ++ u16Bytes e c ++
      payloadBytes d (s - 10)) 0 = s := by
    rw [hW1]
    exact readU32_u32Bytes e s _ (by omega)
  have hrt : readU32 e (u32Bytes e s ++ u32Bytes e t ++ u16Bytes e c ++
      payloadBytes d (s - 10)) 4 = t := by
    rw [hW1]
    have hsh := readU32_shift e (u32Bytes e s)
      (u32Bytes e t ++ (u16Bytes e c ++ payloadBytes d (s - 10))) 0
    rw [u32Bytes_length] at hsh
    simpa using hsh.trans (readU32_u32Bytes e t _ (by omega))
  have hc16 : c < 2 ^ 16 := by rw [hck]; exact checksumList_lt d (s - 10)
  have hrc : readU16 e (u32Bytes e s ++ u32Bytes e t ++ u16Bytes e c ++
      payloadBytes d (s - 10)) 8 = c := by
    have hW2 : u32Bytes e s ++ u32Bytes e t ++ u16Bytes e c ++ payloadBytes d (s - 10) =
        (u32Bytes e s ++ u32Bytes e t) ++ (u16Bytes e c ++ payloadBytes d (s - 10)) := by
      simp [List.append_assoc]
    rw [hW2]
    have hlen8 : (u32Bytes e s ++ u32Bytes e t).length = 8 := by
      simp [u32Bytes_length]
    have hsh := readU16_shift e (u32Bytes e s ++ u32Bytes e t)
      (u16Bytes e c ++ payloadBytes d (s - 10)) 0
    rw [hlen8] at hsh
    simpa using hsh.trans (readU16_u16Bytes e c _ hc16)
  have hdrop : (u32Bytes e s ++ u32Bytes e t ++ u16Bytes e c ++
      payloadBytes d (s - 10)).drop 10 = payloadBytes d (s - 10) := by
    have hlen10 : (u32Bytes e s ++ u32Bytes e t ++ u16Bytes e c).length = 10 := by
      simp [u32Bytes_length, u16Bytes_length]
    rw [← hlen10, List.drop_left]
  have hself : payloadBytes d (s - 10) = d := by
    rw [← hlen]
    exact payloadBytes_self d hbytes
  simp only [deserialize_message, headerSize]
  rw [hlenW, hrs, hrt, hrc, hdrop, hsub10, payloadBytes_idem, hself]
  rw [if_neg (show ¬ s < 10 by omega), if_neg (lt_irrefl s), if_pos hck.symm]

/-- Witness for C3: the concrete 14-byte player-input message round-trips
through its little-endian wire form. -/
theorem roundtrip_payload_ge3_witness :
    deserialize_message Endian.little [14, 0, 0, 0, 5, 0, 0, 0, 6, 2, 1, 2, 3, 4] =
      Except.ok ⟨⟨14, MSG_PLAYER_INPUT, 518⟩, [1, 2, 3, 4]⟩ :=
  roundtrip_payload_ge3 Endian.little ⟨⟨14, MSG_PLAYER_INPUT, 518⟩, [1, 2, 3, 4]⟩
    (by decide) (by decide) (by decide) (by decide) (by decide) (by decide)
    (by decide) [14, 0, 0, 0, 5, 0, 0, 0, 6, 2, 1, 2, 3, 4] (by decide)

/-- A uint32 read assembled from four byte reads fits in 32 bits. -/
theorem readU32_lt (e : Endian) (buf : List Nat) (off : Nat) :
    readU32 e buf off < 2 ^ 32 := by
  have b0 := byteAt_lt buf off
  have b1 := byteAt_lt buf (off + 1)
  have b2 := byteAt_lt buf (off + 2)
  have b3 := byteAt_lt buf (off + 3)
  cases e <;> simp only [readU32] <;> omega

/-- Claim C6: deserialize_message fails with TruncatedHeader exactly when
fewer than header-size bytes are available, with TruncatedPayload exactly
when at least a header is present but the buffer is shorter than the
declared size, with IntegrityMismatch exactly when the token recomputed
over the received payload differs from the header token, and succeeds with
the full message otherwise.  The hypothesis confines the statement to
buffers that do not reach the payload/checksum stage with a declared size
below header+3: there the C code underflows (declared size below the
header size makes the data_size memcpy length wrap to near 2^64; payload
sizes 0-2 hit the checksum underflow, see the checksum theorems). -/
theorem deserialize_error_taxonomy (e : Endian) (buf : List Nat)
    (hsafe : headerSize ≤ buf.length → readU32 e buf 0 ≤ buf.length →
      headerSize + 3 ≤ readU32 e buf 0) :
    (deserialize_message e buf = .error .truncatedHeader ↔
      buf.length < headerSize) ∧
    (deserialize_message e buf = .error .truncatedPayload ↔
      (headerSize ≤ buf.length ∧ buf.length < readU32 e buf 0)) ∧
    (deserialize_message e buf = .error .integrityMismatch ↔
      (headerSize ≤ buf.length ∧ readU32 e buf 0 ≤ buf.length ∧
        checksumList (payloadBytes (buf.drop headerSize)
            (readU32 e buf 0 - headerSize)) (readU32 e buf 0 - headerSize) ≠
          readU16 e buf 8)) ∧
    (headerSize ≤ buf.length → readU32 e buf 0 ≤ buf.length →
      checksumList (payloadBytes (buf.drop headerSize)
          (readU32 e buf 0 - headerSize)) (readU32 e buf 0 - headerSize) =
        readU16 e buf 8 →
      deserialize_message e buf = Except.ok ⟨⟨readU32 e buf 0, readU32 e buf 4,
        readU16 e buf 8⟩,
        payloadBytes (buf.drop headerSize) (readU32 e buf 0 - headerSize)⟩) := by
  simp only [headerSize] at hsafe ⊢
  have hlt32 : readU32 e buf 0 < 2 ^ 32 := readU32_lt e buf 0
  by_cases h1 : buf.length < 10
  · have heval : deserialize_message e buf = .error .truncatedHeader := by
      simp only [deserialize_message, headerSize]
      rw [if_pos h1]
    rw [heval]
    refine ⟨by simp [h1], ?_, ?_, ?_⟩
    · simp only [Except.error.injEq]
      constructor
      · intro h; cases h
      · intro h; omega
    · simp only [Except.error.injEq]
      constructor
      · intro h; cases h
      · intro h; omega
    · intro hx; omega
  · by_cases h2 : buf.length < readU32 e buf 0
    · have heval : deserialize_message e buf = .error .truncatedPayload := by
        simp only [deserialize_message, headerSize]
        rw [if_neg h1, if_pos h2]
      rw [heval]
      refine ⟨?_, by simp; omega, ?_, ?_⟩
      · simp only [Except.error.injEq]
        constructor
        · intro h; cases h
        · intro h; omega
      · simp only [Except.error.injEq]
        constructor
        · intro h; cases h
        · intro h; omega
      · intro hx hy; omega
    · have hs13 : 13 ≤ readU32 e buf 0 := hsafe (by omega) (by omega)
      have hsub : sub_sizeT (readU32 e buf 0) 10 = readU32 e buf 0 - 10 :=
        sub_sizeT_of_le _ 10 (by omega) (by
          have : (2 : Nat) ^ 32 < SIZE_T_MOD := by norm_num [SIZE_T_MOD]
          omega)
      by_cases h3 : checksumList (payloadBytes (buf.drop 10)
          (readU32 e buf 0 - 10)) (readU32 e buf 0 - 10) = readU16 e buf 8
      · have heval : deserialize_message e buf = Except.ok ⟨⟨readU32 e buf 0,
            readU32 e buf 4, readU16 e buf 8⟩,
            payloadBytes (buf.drop 10) (readU32 e buf 0 - 10)⟩ := by
          simp only [deserialize_message, headerSize]
          rw [if_neg h1, if_neg h2, hsub, if_pos h3]
        rw [heval]
        refine ⟨?_, ?_, ?_, fun _ _ _ => rfl⟩
        · constructor
          · intro h; simp at h
          · intro h; omega
        · constructor
          · intro h; simp at h
          · intro h; omega
        · constructor
          · intro h; simp at h
          · intro h; exact absurd h3 h.2.2
      · have heval : deserialize_message e buf = .error .integrityMismatch := by
          simp only [deserialize_message, headerSize]
          rw [if_neg h1, if_neg h2, hsub, if_neg h3]
        rw [heval]
        refine ⟨?_, by simp; omega, ?_, fun _ _ hz => absurd hz h3⟩
        · simp only [Except.error.injEq]
          constructor
          · intro h; cases h
          · intro h; omega
        · constructor
          · intro _; exact ⟨by omega, by omega, h3⟩
          · intro _; rfl

/-- Witness for C6: the empty buffer decodes to TruncatedHeader. -/
theorem deserialize_error_taxonomy_witness :
    deserialize_message Endian.little [] = Except.error DecodeError.truncatedHeader :=
  (deserialize_error_taxonomy Endian.little []
    (fun h => absurd h (by decide))).1.mpr (by decide)

/-- Claim C9: on a host with two connected peers A and B, disconnecting A
— whether through a failed read inside server_handle_messages or through a
heartbeat timeout inside server_check_heartbeats — leaves peer B's slot
(connected flag and last-heartbeat timestamp) exactly as it was, and a
subsequent server_broadcast still succeeds for B (send count 1). -/
theorem peer_isolation (e : Endian) (szCR szGS szPI : Nat) (st : ServerState)
    (A B : ClientConnection) (now : Int) (msg : NetworkMessage)
    (acc : AcceptEvent) (hA : A.is_connected = true) (hB : B.is_connected = true)
    (hmsg : msg.header.msg_size ≤ BUFFER_SIZE)
    (hAstale : 3 < now - A.last_heartbeat)
    (hBfresh : now - B.last_heartbeat ≤ 3) :
    ((server_handle_messages e szCR szGS szPI ⟨st, [A, B], 2⟩ false acc
        (fun i => if i = 0 then RecvEvent.closed else RecvEvent.notReady)
        now).2 = ⟨st, [{ A with is_connected := false }, B], 2⟩ ∧
      (server_broadcast e (server_handle_messages e szCR szGS szPI ⟨st, [A, B], 2⟩
        false acc (fun i => if i = 0 then RecvEvent.closed else RecvEvent.notReady)
        now).2 msg (fun _ => SendOutcome.ok)).1 = 1) ∧
    ((server_check_heartbeats ⟨st, [A, B], 2⟩ now).2 =
        ⟨st, [{ A with is_connected := false }, B], 2⟩ ∧
      (server_broadcast e (server_check_heartbeats ⟨st, [A, B], 2⟩ now).2 msg
        (fun _ => SendOutcome.ok)).1 = 1) := by
  have hser : (serialize_message e msg BUFFER_SIZE).1 =
      some (u32Bytes e msg.header.msg_size ++ u32Bytes e msg.header.msg_type ++
        u16Bytes e (checksumList msg.data (sub_sizeT msg.header.msg_size headerSize)) ++
        payloadBytes msg.data (sub_sizeT msg.header.msg_size headerSize)) := by
    simp [serialize_message, Nat.not_lt.2 hmsg]
  have hstaleA : hbStale now A.last_heartbeat = true := (hbStale_iff _ _).2 hAstale
  have hfreshB : hbStale now B.last_heartbeat = false := by
    rw [Bool.eq_false_iff]
    intro hh
    exact absurd ((hbStale_iff _ _).1 hh) (by omega)
  have hbc : (server_broadcast e ⟨st, [{ A with is_connected := false }, B], 2⟩
      msg (fun _ => SendOutcome.ok)).1 = 1 := by
    simp only [server_broadcast, hser]
    simp [bcastLoop, hB]
  have hhm : (server_handle_messages e szCR szGS szPI ⟨st, [A, B], 2⟩ false acc
      (fun i => if i = 0 then RecvEvent.closed else RecvEvent.notReady) now).2 =
      ⟨st, [{ A with is_connected := false }, B], 2⟩ := by
    simp [server_handle_messages, msgLoop, hA, hB, List.range_succ]
  have hhb : (server_check_heartbeats ⟨st, [A, B], 2⟩ now).2 =
      ⟨st, [{ A with is_connected := false }, B], 2⟩ := by
    simp [server_check_heartbeats, hbLoop, hA, hB, hstaleA, hfreshB]
  exact ⟨⟨hhm, by rw [hhm]; exact hbc⟩, ⟨hhb, by rw [hhb]; exact hbc⟩⟩

/-- Witness for C9: concrete two-peer host, peer 0 stale at time 10. -/
theorem peer_isolation_witness :
    (server_check_heartbeats ⟨ServerState.running,
        [⟨0, true, 0⟩, ⟨1, true, 8⟩], 2⟩ 10).2 =
      ⟨ServerState.running, [⟨0, false, 0⟩, ⟨1, true, 8⟩], 2⟩ ∧
    (server_broadcast Endian.little (server_check_heartbeats
        ⟨ServerState.running, [⟨0, true, 0⟩, ⟨1, true, 8⟩], 2⟩ 10).2
        ⟨⟨14, MSG_PLAYER_INPUT, 518⟩, [1, 2, 3, 4]⟩
        (fun _ => SendOutcome.ok)).1 = 1 := by
  have h := (peer_isolation Endian.little 0 0 0 ServerState.running
    ⟨0, true, 0⟩ ⟨1, true, 8⟩ 10 ⟨⟨14, MSG_PLAYER_INPUT, 518⟩, [1, 2, 3, 4]⟩
    AcceptEvent.wouldBlock rfl rfl (by decide) (by norm_num) (by norm_num)).2
  exact ⟨h.1, h.2⟩


end TetrisNet
